import Mathlib

/-!
Shallow embedding of the booking/wallet/transaction logic of the
backend-bowar repository (AdonisJS controllers under
`src/app/controllers`).  Controllers are modelled as pure functions from
a database state `DB` (plus the current time and the authenticated user)
to a response paired with the successor state.  A rolled-back database
transaction is modelled by returning the input state unchanged.
-/

namespace Bowar

inductive Role where
  | member
  | regular
  | operator
deriving DecidableEq

inductive BookingStatus where
  | pending
  | active
  | cancelled
  | completed
deriving DecidableEq

inductive PaymentStatus where
  | pending
  | paid
  | rejected
deriving DecidableEq

inductive TxnType where
  | topup
  | payment
  | refund
deriving DecidableEq

inductive TxnStatus where
  | pending
  | completed
  | failed
deriving DecidableEq

inductive PcStatus where
  | available
  | occupied
  | maintenance
deriving DecidableEq

/-- Authenticated user (`#models/user`): the fields the controllers read. -/
structure User where
  id : Nat
  role : Role
  warnet_id : Option Nat
deriving DecidableEq

/-- Venue (`#models/warnet`): the pricing fields used by booking creation. -/
structure Warnet where
  id : Nat
  member_price_per_hour : Int
  regular_price_per_hour : Int
deriving DecidableEq

/-- Per-(user, venue) wallet (`#models/cafe_wallet`). -/
structure CafeWallet where
  user_id : Nat
  warnet_id : Nat
  balance : Int
  remaining_minutes : Int
  is_active : Bool
deriving DecidableEq

/-- Booking row (`#models/booking`): the fields the controllers touch. -/
structure Booking where
  id : Nat
  user_id : Nat
  warnet_id : Nat
  pc_number : Nat
  duration : Nat
  status : BookingStatus
  payment_status : PaymentStatus
  price_per_hour : Int
  total_price : Int
  is_member_booking : Bool
  can_cancel_until : Nat
  payment_proof_image : Option String
  payment_account_name : Option String
  approved_by : Option Nat
  approved_at : Option Nat
deriving DecidableEq

/-- Wallet-ledger row (`#models/bowar_transaction`). -/
structure BowarTransaction where
  id : Nat
  user_id : Nat
  type : TxnType
  amount : Int
  booking_id : Option Nat
  warnet_id : Option Nat
  status : TxnStatus
  approved_by : Option Nat
  approved_at : Option Nat
  rejection_note : Option String
deriving DecidableEq

/-- PC occupancy row (`#models/pc`). -/
structure Pc where
  warnet_id : Nat
  pc_number : Nat
  status : PcStatus
  current_booking_id : Option Nat
deriving DecidableEq

/-- The database state the embedded controllers read and write.
`nextBookingId` / `nextTxnId` model the primary-key sequences. -/
structure DB where
  warnets : List Warnet
  users : List User
  wallets : List CafeWallet
  bookings : List Booking
  txns : List BowarTransaction
  pcs : List Pc
  nextBookingId : Nat
  nextTxnId : Nat
deriving DecidableEq

/-- HTTP responses, abstracted to status plus a tag identifying which
return site of the controller produced them. -/
inductive Resp where
  | ok : Resp
  | created : Nat → Resp
  | badRequest : String → Resp
  | forbidden : String → Resp
  | notFound : String → Resp
deriving DecidableEq

def Resp.code : Resp → Nat
  | .ok => 200
  | .created _ => 201
  | .badRequest _ => 400
  | .forbidden _ => 403
  | .notFound _ => 404

/-- Update the first element satisfying `p` (active-record `save()` on the
model instance returned by a `first()` query). -/
def updateFirst (p : α → Bool) (f : α → α) : List α → List α
  | [] => []
  | x :: xs => if p x then f x :: xs else x :: updateFirst p f xs

/-- Key predicate for wallet lookups: `.where('user_id', u).where('warnet_id', w)`. -/
def walletKey (userId warnetId : Nat) (w : CafeWallet) : Bool :=
  w.user_id == userId && w.warnet_id == warnetId

/-- Key predicate for PC lookups: `.where('warnet_id', w).where('pc_number', n)`. -/
def pcKey (warnetId pcNumber : Nat) (p : Pc) : Bool :=
  p.warnet_id == warnetId && p.pc_number == pcNumber

/-- `Pc.updateOrCreate({warnet_id, pc_number}, {status: occupied, current_booking_id})`. -/
def pcUpsertOccupied (pcs : List Pc) (warnetId pcNumber bookingId : Nat) : List Pc :=
  if pcs.any (pcKey warnetId pcNumber) then
    updateFirst (pcKey warnetId pcNumber)
      (fun p => { p with status := .occupied, current_booking_id := some bookingId }) pcs
  else
    pcs ++ [{ warnet_id := warnetId, pc_number := pcNumber,
              status := .occupied, current_booking_id := some bookingId }]

/-- Balance of the wallet a `first()` lookup returns, or 0 when absent
(mirrors `cafeWallet ? cafeWallet.balance : 0`). -/
def listWalletBalance (wallets : List CafeWallet) (userId warnetId : Nat) : Int :=
  match wallets.find? (walletKey userId warnetId) with
  | some w => w.balance
  | none => 0

def walletBalance (db : DB) (userId warnetId : Nat) : Int :=
  listWalletBalance db.wallets userId warnetId

/-- Booking-creation request body (`request.only([...])` in
`BookingController.create`).  JavaScript falsiness of a missing numeric
field is modelled by the value 0, of a missing string field by `""`;
`paymentProofImage` records whether a proof file was uploaded. -/
structure CreateReq where
  warnetId : Nat
  pcNumber : Nat
  bookingDate : String
  bookingTime : String
  duration : Nat
  paymentMethod : String
  paymentAccountName : String
  paymentProofImage : Bool
deriving DecidableEq

/-- The required-fields validation of `BookingController.create`. -/
def createMissingField (r : CreateReq) : Bool :=
  r.warnetId == 0 || r.pcNumber == 0 || r.bookingDate == "" ||
    r.bookingTime == "" || r.duration == 0 || r.paymentMethod == ""

/-- Two minutes, the cancellation window, in milliseconds. -/
def twoMinutesMs : Nat := 120000

/-- The body of the `db.connection().transaction()` block of
`BookingController.create` (lines 127-217): persist the booking; for
`dompet_bowar` check and debit the wallet, record the payment
transaction and activate the booking (insufficient balance rolls the
whole transaction back); finally upsert the PC to occupied when the
booking is paid. -/
def createBookingTrx (db : DB) (now : Nat) (user : User) (r : CreateReq)
    (isMemberBooking : Bool) (pricePerHour totalPrice : Int) : Resp × DB :=
  let booking0 : Booking :=
    { id := db.nextBookingId
      user_id := user.id
      warnet_id := r.warnetId
      pc_number := r.pcNumber
      duration := r.duration
      status := .pending
      payment_status := .pending
      price_per_hour := pricePerHour
      total_price := totalPrice
      is_member_booking := isMemberBooking
      can_cancel_until := now + twoMinutesMs
      payment_proof_image :=
        if r.paymentMethod == "bank_transfer" then some "uploaded" else none
      payment_account_name :=
        if r.paymentMethod == "bank_transfer" then some r.paymentAccountName else none
      approved_by := none
      approved_at := none }
  if r.paymentMethod == "dompet_bowar" then
    match db.wallets.find? (walletKey user.id r.warnetId) with
    | none => (Resp.badRequest "insufficient-balance", db)
    | some cafeWallet =>
      if cafeWallet.balance < totalPrice then
        (Resp.badRequest "insufficient-balance", db)
      else
        let wallets' := updateFirst (walletKey user.id r.warnetId)
          (fun w => { w with balance := w.balance - totalPrice }) db.wallets
        let txn : BowarTransaction :=
          { id := db.nextTxnId
            user_id := user.id
            type := .payment
            amount := -totalPrice
            booking_id := some booking0.id
            warnet_id := some r.warnetId
            status := .completed
            approved_by := none
            approved_at := none
            rejection_note := none }
        let booking1 := { booking0 with payment_status := PaymentStatus.paid,
                                        status := BookingStatus.active }
        (Resp.created booking1.id,
         { db with wallets := wallets'
                   bookings := db.bookings ++ [booking1]
                   txns := db.txns ++ [txn]
                   pcs := pcUpsertOccupied db.pcs r.warnetId r.pcNumber booking1.id
                   nextBookingId := db.nextBookingId + 1
                   nextTxnId := db.nextTxnId + 1 })
  else
    (Resp.created booking0.id,
     { db with bookings := db.bookings ++ [booking0]
               nextBookingId := db.nextBookingId + 1 })

/-- `isMemberBooking` (line 67): member role and home venue match. -/
def isMemberBookingFor (user : User) (r : CreateReq) : Bool :=
  user.role == Role.member && user.warnet_id == some r.warnetId

/-- `pricePerHour` (lines 88-90). -/
def createPricePerHour (warnet : Warnet) (user : User) (r : CreateReq) : Int :=
  if isMemberBookingFor user r then warnet.member_price_per_hour
  else warnet.regular_price_per_hour

/-- `totalPrice` (line 91). -/
def createTotalPrice (warnet : Warnet) (user : User) (r : CreateReq) : Int :=
  createPricePerHour warnet user r * (r.duration : Int)

/-- `BookingController.create` (POST /bookings). -/
def createBooking (db : DB) (now : Nat) (user : User) (r : CreateReq) : Resp × DB :=
  if createMissingField r then (Resp.badRequest "missing-fields", db)
  else if r.paymentMethod == "bank_transfer" && r.paymentAccountName == "" then
    (Resp.badRequest "account-name-required", db)
  else if r.paymentMethod == "bank_transfer" && !r.paymentProofImage then
    (Resp.badRequest "proof-image-required", db)
  else
    let isMemberBooking := isMemberBookingFor user r
    if isMemberBooking && r.duration ≤ 1 then
      (Resp.badRequest "member-minimum-duration", db)
    else
      match db.warnets.find? (fun w => w.id == r.warnetId) with
      | none => (Resp.notFound "warnet-not-found", db)
      | some warnet =>
        let pricePerHour :=
          if isMemberBooking then warnet.member_price_per_hour
          else warnet.regular_price_per_hour
        let totalPrice := pricePerHour * (r.duration : Int)
        match db.pcs.find? (pcKey r.warnetId r.pcNumber) with
        | some pc =>
          if pc.status == PcStatus.maintenance then
            (Resp.badRequest "pc-maintenance", db)
          else
            createBookingTrx db now user r isMemberBooking pricePerHour totalPrice
        | none =>
          createBookingTrx db now user r isMemberBooking pricePerHour totalPrice

/-- Modelled from the spec: the `Booking.canCancel()` model method is not
in the repository sources (only the controllers are); the spec states the
window as "a cancellation is accepted iff now ≤ can_cancel_until",
"evaluated at cancel-request time". -/
def canCancel (b : Booking) (now : Nat) : Bool :=
  now ≤ b.can_cancel_until

/-- Credit `amount` to the wallet keyed by (`userId`, `warnetId`),
creating it (balance 0, then credited) when absent — the find-or-create
pattern of the cancel/refund/approve handlers. -/
def walletCreditOrCreate (wallets : List CafeWallet) (userId warnetId : Nat)
    (amount : Int) : List CafeWallet :=
  if wallets.any (walletKey userId warnetId) then
    updateFirst (walletKey userId warnetId)
      (fun w => { w with balance := w.balance + amount }) wallets
  else
    wallets ++ [{ user_id := userId, warnet_id := warnetId, balance := amount,
                  remaining_minutes := 0, is_active := false }]

/-- `BookingController.cancel` (POST /bookings/:id/cancel). -/
def cancelBooking (db : DB) (now : Nat) (user : User) (bookingId : Nat) : Resp × DB :=
  match db.bookings.find? (fun b => b.id == bookingId) with
  | none => (Resp.notFound "booking-not-found", db)
  | some booking =>
    if booking.user_id != user.id then
      (Resp.forbidden "not-booking-owner", db)
    else if booking.status == BookingStatus.cancelled then
      (Resp.badRequest "already-cancelled", db)
    else if booking.status == BookingStatus.completed then
      (Resp.badRequest "cannot-cancel-completed", db)
    else if !canCancel booking now then
      (Resp.badRequest "cancel-window-expired", db)
    else
      let bookings' := updateFirst (fun b => b.id == bookingId)
        (fun b => { b with status := BookingStatus.cancelled }) db.bookings
      let refunded :=
        if booking.payment_status == PaymentStatus.paid then
          match db.txns.find? (fun t =>
              t.booking_id == some booking.id && t.type == TxnType.payment) with
          | some _ =>
            let wallets' :=
              walletCreditOrCreate db.wallets user.id booking.warnet_id booking.total_price
            let refundTxn : BowarTransaction :=
              { id := db.nextTxnId
                user_id := user.id
                type := .refund
                amount := booking.total_price
                booking_id := some booking.id
                warnet_id := some booking.warnet_id
                status := .completed
                approved_by := none
                approved_at := none
                rejection_note := none }
            (wallets', db.txns ++ [refundTxn], db.nextTxnId + 1)
          | none => (db.wallets, db.txns, db.nextTxnId)
        else (db.wallets, db.txns, db.nextTxnId)
      let pcs' :=
        match db.pcs.find? (fun p => pcKey booking.warnet_id booking.pc_number p &&
            p.current_booking_id == some booking.id) with
        | some _ =>
          updateFirst (fun p => pcKey booking.warnet_id booking.pc_number p &&
              p.current_booking_id == some booking.id)
            (fun p => { p with status := PcStatus.available, current_booking_id := none })
            db.pcs
        | none => db.pcs
      (Resp.ok,
       { db with bookings := bookings'
                 wallets := refunded.1
                 txns := refunded.2.1
                 nextTxnId := refunded.2.2
                 pcs := pcs' })

/-- `OperatorBookingsController.approve` (POST /operator/bookings/:id/approve). -/
def operatorApproveBooking (db : DB) (now : Nat) (operatorUser : User)
    (bookingId : Nat) : Resp × DB :=
  if operatorUser.role != Role.operator then
    (Resp.forbidden "operators-only", db)
  else
    match db.bookings.find? (fun b => b.id == bookingId) with
    | none => (Resp.notFound "booking-not-found", db)
    | some booking =>
      if some booking.warnet_id != operatorUser.warnet_id then
        (Resp.forbidden "wrong-warnet", db)
      else if booking.payment_status == PaymentStatus.paid then
        (Resp.badRequest "already-approved", db)
      else if booking.status == BookingStatus.cancelled then
        (Resp.badRequest "cannot-approve-cancelled", db)
      else
        let bookings' := updateFirst (fun b => b.id == bookingId)
          (fun b => { b with payment_status := PaymentStatus.paid
                             status := BookingStatus.active
                             approved_by := some operatorUser.id
                             approved_at := some now }) db.bookings
        (Resp.ok,
         { db with bookings := bookings'
                   pcs := pcUpsertOccupied db.pcs booking.warnet_id booking.pc_number
                            booking.id })

/-- `OperatorBookingsController.reject` (POST /operator/bookings/:id/reject). -/
def operatorRejectBooking (db : DB) (operatorUser : User) (bookingId : Nat) : Resp × DB :=
  if operatorUser.role != Role.operator then
    (Resp.forbidden "operators-only", db)
  else
    match db.bookings.find? (fun b => b.id == bookingId) with
    | none => (Resp.notFound "booking-not-found", db)
    | some booking =>
      if some booking.warnet_id != operatorUser.warnet_id then
        (Resp.forbidden "wrong-warnet", db)
      else if booking.payment_status == PaymentStatus.paid then
        (Resp.badRequest "cannot-reject-approved", db)
      else if booking.status == BookingStatus.cancelled then
        (Resp.badRequest "already-cancelled", db)
      else
        let bookings' := updateFirst (fun b => b.id == bookingId)
          (fun b => { b with payment_status := PaymentStatus.rejected
                             status := BookingStatus.cancelled }) db.bookings
        (Resp.ok, { db with bookings := bookings' })

/-- `BowarTransactionController.approve` (PATCH /bowar-transactions/:id/approve).
Note that, unlike the booking controller, this handler performs its two
writes (wallet save, then transaction save) without any surrounding
database transaction. -/
def approveTopup (db : DB) (now : Nat) (user : User) (txnId : Nat) : Resp × DB :=
  if user.role != Role.operator then
    (Resp.forbidden "operators-only", db)
  else
    match db.txns.find? (fun t => t.id == txnId) with
    | none => (Resp.notFound "txn-not-found", db)
    | some txn =>
      if user.warnet_id != txn.warnet_id then
        (Resp.forbidden "wrong-warnet", db)
      else if txn.status != TxnStatus.pending then
        (Resp.badRequest "already-processed", db)
      else if txn.type != TxnType.topup then
        (Resp.badRequest "only-topup-approvable", db)
      else
        match db.users.find? (fun u => u.id == txn.user_id) with
        | none => (Resp.notFound "owner-not-found", db)
        | some owner =>
          let wallets' :=
            walletCreditOrCreate db.wallets owner.id (txn.warnet_id.getD 0) txn.amount
          let txns' := updateFirst (fun t => t.id == txnId)
            (fun t => { t with status := TxnStatus.completed
                               approved_by := some user.id
                               approved_at := some now }) db.txns
          (Resp.ok, { db with wallets := wallets', txns := txns' })

/-- The durable intermediate state of `BowarTransactionController.approve`
after the wallet write (`cafeWallet.save()`, line 481) but before the
transaction write (`transaction.save()`, line 487).  Because neither
write is wrapped in a database transaction, a failure between the two
leaves exactly this state behind. -/
def approveTopupAfterWalletWrite (db : DB) (user : User) (txnId : Nat) : DB :=
  if user.role != Role.operator then db
  else
    match db.txns.find? (fun t => t.id == txnId) with
    | none => db
    | some txn =>
      if user.warnet_id != txn.warnet_id then db
      else if txn.status != TxnStatus.pending then db
      else if txn.type != TxnType.topup then db
      else
        match db.users.find? (fun u => u.id == txn.user_id) with
        | none => db
        | some owner =>
          { db with wallets :=
              walletCreditOrCreate db.wallets owner.id (txn.warnet_id.getD 0) txn.amount }

/-- `BowarTransactionController.payment` (POST /bowar-transactions/payment).
Like `approve` and `refund`, it performs the wallet write and the
transaction-log write without a surrounding database transaction. -/
def bowarPayment (db : DB) (user : User) (bookingId : Nat) (amount : Int) : Resp × DB :=
  if bookingId == 0 || amount == 0 then
    (Resp.badRequest "missing-fields", db)
  else
    match db.bookings.find? (fun b => b.id == bookingId) with
    | none => (Resp.notFound "booking-not-found", db)
    | some booking =>
      if booking.user_id != user.id then
        (Resp.forbidden "not-booking-owner", db)
      else
        match db.wallets.find? (walletKey user.id booking.warnet_id) with
        | none => (Resp.badRequest "insufficient-balance", db)
        | some cafeWallet =>
          if cafeWallet.balance < amount then
            (Resp.badRequest "insufficient-balance", db)
          else
            let wallets' := updateFirst (walletKey user.id booking.warnet_id)
              (fun w => { w with balance := w.balance - amount }) db.wallets
            let txn : BowarTransaction :=
              { id := db.nextTxnId
                user_id := user.id
                type := .payment
                amount := -amount
                booking_id := some bookingId
                warnet_id := some booking.warnet_id
                status := .completed
                approved_by := none
                approved_at := none
                rejection_note := none }
            (Resp.created txn.id,
             { db with wallets := wallets'
                       txns := db.txns ++ [txn]
                       nextTxnId := db.nextTxnId + 1 })

/-- `BowarTransactionController.refund` (POST /bowar-transactions/refund). -/
def bowarRefund (db : DB) (user : User) (bookingId : Option Nat)
    (amount : Int) : Resp × DB :=
  if amount ≤ 0 then
    (Resp.badRequest "amount-must-be-positive", db)
  else
    let bookingFound : Option Booking :=
      match bookingId with
      | some bid => db.bookings.find? (fun b => b.id == bid)
      | none => none
    let targetWarnet :=
      match bookingFound with
      | some b => b.warnet_id
      | none => 0
    let wallets' :=
      match db.wallets.find? (walletKey user.id targetWarnet), bookingFound with
      | some _, _ =>
        updateFirst (walletKey user.id targetWarnet)
          (fun w => { w with balance := w.balance + amount }) db.wallets
      | none, some b =>
        db.wallets ++ [{ user_id := user.id, warnet_id := b.warnet_id, balance := amount,
                         remaining_minutes := 0, is_active := false }]
      | none, none => db.wallets
    let txn : BowarTransaction :=
      { id := db.nextTxnId
        user_id := user.id
        type := .refund
        amount := amount
        booking_id := bookingId
        warnet_id := match bookingFound with | some b => some b.warnet_id | none => none
        status := .completed
        approved_by := none
        approved_at := none
        rejection_note := none }
    (Resp.created txn.id,
     { db with wallets := wallets'
               txns := db.txns ++ [txn]
               nextTxnId := db.nextTxnId + 1 })

/-- Shape of an error-response body: `{ message, error?, details? }`. -/
structure ErrBody where
  message : String
  error : Option String
  details : Option String
deriving DecidableEq

/-- The 500 body built by the outer catch of `BookingController.cancel`
(lines 401-405): it always includes `error.message` and `error.stack`
(`details`), with no development-mode gate. -/
def bookingCancelErrorBody (_devMode : Bool) (errMessage errStack : String) : ErrBody :=
  { message := "Failed to cancel booking"
    error := some errMessage
    details := some errStack }

/-- The 500 body built by the outer catch of
`BowarTransactionController.index` (lines 93-96): the raw error message
is exposed only when `NODE_ENV === 'development'`, and no stack trace is
ever included. -/
def bowarIndexErrorBody (devMode : Bool) (errMessage : String) : ErrBody :=
  { message := "Terjadi kesalahan pada server"
    error := if devMode then some errMessage else none
    details := none }

/-- The 500 body of `BowarTransactionController.topup` (lines 243-246):
`message: error.message || '...'` puts the raw error message in the
user-facing message field in every mode (falling back to the generic text
only when it is empty/falsy), while the `error` field is gated on
development mode. -/
def bowarTopupErrorBody (devMode : Bool) (errMessage : String) : ErrBody :=
  { message :=
      if errMessage == "" then "Terjadi kesalahan saat membuat permintaan top up"
      else errMessage
    error := if devMode then some errMessage else none
    details := none }

/-- The 500 body of `BowarTransactionController.payment` (lines 326-328):
generic message only. -/
def bowarPaymentErrorBody : ErrBody :=
  { message := "Terjadi kesalahan saat memproses pembayaran"
    error := none
    details := none }

/-- The 500 body of `BowarTransactionController.refund` (lines 402-404). -/
def bowarRefundErrorBody : ErrBody :=
  { message := "Terjadi kesalahan saat memproses refund"
    error := none
    details := none }

/-- The 500 body of `BowarTransactionController.approve` (lines 504-506). -/
def bowarApproveErrorBody : ErrBody :=
  { message := "Terjadi kesalahan saat menyetujui top up"
    error := none
    details := none }

/-- The 500 body of `BowarTransactionController.reject` (lines 573-575). -/
def bowarRejectErrorBody : ErrBody :=
  { message := "Terjadi kesalahan saat menolak top up"
    error := none
    details := none }

/-- The 500 body of `BookingController.create` (lines 232-235): raw
error message in the `error` field, in every mode. -/
def bookingCreateErrorBody (_devMode : Bool) (errMessage : String) : ErrBody :=
  { message := "Failed to create booking"
    error := some errMessage
    details := none }

/-- The 500 body of `BookingController.index` (lines 261-264). -/
def bookingIndexErrorBody (_devMode : Bool) (errMessage : String) : ErrBody :=
  { message := "Failed to fetch bookings"
    error := some errMessage
    details := none }

/-- The 500 body of `OperatorBookingsController.pending` (lines 453-456). -/
def operatorPendingErrorBody (_devMode : Bool) (errMessage : String) : ErrBody :=
  { message := "Failed to fetch pending bookings"
    error := some errMessage
    details := none }

/-- The 500 body of `OperatorBookingsController.index` (lines 514-517). -/
def operatorIndexErrorBody (_devMode : Bool) (errMessage : String) : ErrBody :=
  { message := "Failed to fetch bookings"
    error := some errMessage
    details := none }

/-- The 500 body of `OperatorBookingsController.approve` (lines 605-608). -/
def operatorApproveErrorBody (_devMode : Bool) (errMessage : String) : ErrBody :=
  { message := "Failed to approve booking"
    error := some errMessage
    details := none }

/-- The 500 body of `OperatorBookingsController.reject` (lines 670-673). -/
def operatorRejectErrorBody (_devMode : Bool) (errMessage : String) : ErrBody :=
  { message := "Failed to reject booking"
    error := some errMessage
    details := none }

/-- The booking-touching operations of the API, for stating properties of
operation sequences. -/
inductive Op where
  | create (now : Nat) (user : User) (r : CreateReq)
  | cancel (now : Nat) (user : User) (bookingId : Nat)
  | approve (now : Nat) (operatorUser : User) (bookingId : Nat)
  | reject (operatorUser : User) (bookingId : Nat)

def applyOp (db : DB) : Op → DB
  | .create now user r => (createBooking db now user r).2
  | .cancel now user bid => (cancelBooking db now user bid).2
  | .approve now opU bid => (operatorApproveBooking db now opU bid).2
  | .reject opU bid => (operatorRejectBooking db opU bid).2

def runOps (db : DB) : List Op → DB
  | [] => db
  | o :: os => runOps (applyOp db o) os

/-- The booking row present after a successful wallet-paid creation. -/
def dompetPaidBooking (db : DB) (now : Nat) (user : User) (r : CreateReq)
    (isMember : Bool) (pph total : Int) : Booking :=
  { id := db.nextBookingId
    user_id := user.id
    warnet_id := r.warnetId
    pc_number := r.pcNumber
    duration := r.duration
    status := .active
    payment_status := .paid
    price_per_hour := pph
    total_price := total
    is_member_booking := isMember
    can_cancel_until := now + twoMinutesMs
    payment_proof_image := none
    payment_account_name := none
    approved_by := none
    approved_at := none }

/-- The payment-ledger row written by a successful wallet-paid creation. -/
def dompetPaymentTxn (db : DB) (user : User) (r : CreateReq) (total : Int) :
    BowarTransaction :=
  { id := db.nextTxnId
    user_id := user.id
    type := .payment
    amount := -total
    booking_id := some db.nextBookingId
    warnet_id := some r.warnetId
    status := .completed
    approved_by := none
    approved_at := none
    rejection_note := none }

/-- The database state after a successful wallet-paid creation. -/
def dompetSuccessDB (db : DB) (now : Nat) (user : User) (r : CreateReq)
    (isMember : Bool) (pph total : Int) : DB :=
  { db with
    wallets := updateFirst (walletKey user.id r.warnetId)
      (fun w => { w with balance := w.balance - total }) db.wallets
    bookings := db.bookings ++ [dompetPaidBooking db now user r isMember pph total]
    txns := db.txns ++ [dompetPaymentTxn db user r total]
    pcs := pcUpsertOccupied db.pcs r.warnetId r.pcNumber db.nextBookingId
    nextBookingId := db.nextBookingId + 1
    nextTxnId := db.nextTxnId + 1 }

/-! ### Booking state machine (C5) -/

/-- Invariant of the booking store reachable through the implemented
operations: no operation ever sets status `completed`, and the only
operation writing payment_status `rejected` simultaneously sets status
`cancelled`. -/
def BookingInv (db : DB) : Prop :=
  ∀ b ∈ db.bookings, b.status ≠ BookingStatus.completed ∧
    (b.payment_status = PaymentStatus.rejected → b.status = BookingStatus.cancelled)

/-- Allowed single-operation payment_status transitions: unchanged, or
pending to paid, or pending to rejected — so paid and rejected are never
left, and each is entered at most once (only from pending). -/
def payStep (p q : PaymentStatus) : Prop :=
  p = q ∨ (p = PaymentStatus.pending ∧ (q = PaymentStatus.paid ∨ q = PaymentStatus.rejected))

/-- Allowed single-operation status transitions: unchanged, pending to
active (upon payment), or non-terminal to cancelled — so nothing leaves
cancelled or completed. -/
def statusStep (s s' : BookingStatus) : Prop :=
  s = s' ∨ (s = BookingStatus.pending ∧ s' = BookingStatus.active) ∨
    (s ≠ BookingStatus.cancelled ∧ s ≠ BookingStatus.completed ∧
     s' = BookingStatus.cancelled)

def stepOK (b b' : Booking) : Prop :=
  payStep b.payment_status b'.payment_status ∧ statusStep b.status b'.status

/-- Every booking present before an operation is still at its position
afterwards and has moved only along the allowed transitions (new bookings
may be appended behind them). -/
def ExistingBookingsStep (db db' : DB) : Prop :=
  List.Forall₂ stepOK db.bookings (db'.bookings.take db.bookings.length)

/-! ### Concrete states used by witnesses and counterexamples -/

def fxWarnet : Warnet := ⟨1, 8000, 10000⟩

def fxUser : User := ⟨1, .regular, none⟩

def fxUser2 : User := ⟨9, .regular, none⟩

def fxOperatorA : User := ⟨2, .operator, some 1⟩

def fxOperatorB : User := ⟨3, .operator, some 2⟩

def fxWallet : CafeWallet := ⟨1, 1, 25000, 0, true⟩

def fxReq : CreateReq := ⟨1, 3, "2026-01-01", "10:00", 2, "dompet_bowar", "", false⟩

def fxDB : DB := ⟨[fxWarnet], [fxUser, fxOperatorA], [fxWallet], [], [], [], 1, 1⟩

def fxTopup : BowarTransaction := ⟨1, 1, .topup, 50000, none, some 1, .pending, none, none, none⟩

def fxTopupDB : DB := ⟨[fxWarnet], [fxUser, fxOperatorA], [], [], [fxTopup], [], 1, 2⟩

def fxPendingBooking : Booking :=
  ⟨1, 1, 1, 3, 2, .pending, .pending, 10000, 20000, false, 120000, some "img", some "acct",
   none, none⟩

def fxBookingDB : DB := ⟨[fxWarnet], [fxUser, fxOperatorA], [], [fxPendingBooking], [], [], 2, 1⟩

def fxMaintPc : Pc := ⟨1, 3, .maintenance, none⟩

def fxMaintDB : DB := ⟨[fxWarnet], [fxUser], [fxWallet], [], [], [fxMaintPc], 1, 1⟩

def fxRichWallet : CafeWallet := ⟨1, 1, 40000, 0, true⟩

def fxDoubleDB : DB := ⟨[fxWarnet], [fxUser], [fxRichWallet], [], [], [], 1, 1⟩

def fxCrossDB : DB :=
  ⟨[fxWarnet], [fxUser, fxOperatorB], [], [fxPendingBooking], [fxTopup], [], 2, 2⟩

/-! ### List helper lemmas -/

theorem updateFirst_length (p : α → Bool) (f : α → α) (l : List α) :
    (updateFirst p f l).length = l.length := by
  induction l with
  | nil => rfl
  | cons x xs ih =>
    by_cases h : p x <;> simp [updateFirst, h, ih]

theorem find?_append_of_none (p : α → Bool) (l₁ l₂ : List α)
    (h : l₁.find? p = none) : (l₁ ++ l₂).find? p = l₂.find? p := by
  induction l₁ with
  | nil => rfl
  | cons x xs ih =>
    by_cases hx : p x
    · simp [List.find?_cons_of_pos _ hx] at h
    · simp only [List.cons_append, List.find?_cons_of_neg _ hx] at h ⊢
      exact ih h

theorem any_of_find? {p : α → Bool} {l : List α} {x : α}
    (h : l.find? p = some x) : l.any p = true := by
  induction l with
  | nil => simp [List.find?] at h
  | cons y ys ih =>
    by_cases hy : p y
    · simp [hy]
    · simp only [List.find?_cons_of_neg _ hy] at h
      simp [hy, ih h]

theorem not_any_of_find?_none {p : α → Bool} {l : List α}
    (h : l.find? p = none) : l.any p = false := by
  induction l with
  | nil => rfl
  | cons y ys ih =>
    by_cases hy : p y
    · simp [List.find?_cons_of_pos _ hy] at h
    · simp only [List.find?_cons_of_neg _ hy] at h
      simp [hy, ih h]

theorem find?_updateFirst_self (p : α → Bool) (f : α → α) (l : List α)
    (hpf : ∀ x, p x = true → p (f x) = true) :
    (updateFirst p f l).find? p = (l.find? p).map f := by
  induction l with
  | nil => rfl
  | cons x xs ih =>
    by_cases hx : p x
    · simp [updateFirst, hx, List.find?_cons_of_pos _ (hpf x hx),
        List.find?_cons_of_pos _ hx]
    · simp only [updateFirst, if_neg hx, List.find?_cons_of_neg _ hx]
      exact ih

theorem updateFirst_ne_of_find? {p : α → Bool} {f : α → α} {l : List α} {x : α}
    (h : l.find? p = some x) (hx : f x ≠ x) : updateFirst p f l ≠ l := by
  induction l with
  | nil => simp [List.find?] at h
  | cons y ys ih =>
    by_cases hy : p y
    · simp only [List.find?_cons_of_pos _ hy, Option.some.injEq] at h
      subst h
      simp only [updateFirst, if_pos hy]
      intro he
      exact hx (List.cons.inj he).1
    · simp only [List.find?_cons_of_neg _ hy] at h
      simp only [updateFirst, if_neg hy]
      intro he
      exact ih h (List.cons.inj he).2

theorem forall₂_or_refl (C : α → α → Prop) (l : List α) :
    List.Forall₂ (fun a b => b = a ∨ C a b) l l := by
  induction l with
  | nil => exact List.Forall₂.nil
  | cons x xs ih => exact List.Forall₂.cons (Or.inl rfl) ih

theorem updateFirst_forall₂ {p : α → Bool} (f : α → α) {l : List α} {x : α}
    (h : l.find? p = some x) :
    List.Forall₂ (fun a b => b = a ∨ (a = x ∧ b = f x)) l (updateFirst p f l) := by
  induction l with
  | nil => exact List.Forall₂.nil
  | cons y ys ih =>
    by_cases hy : p y
    · simp only [List.find?_cons_of_pos _ hy, Option.some.injEq] at h
      subst h
      simp only [updateFirst, hy, if_true]
      exact List.Forall₂.cons (Or.inr ⟨rfl, rfl⟩) (forall₂_or_refl _ ys)
    · simp only [List.find?_cons_of_neg _ hy] at h
      simp only [updateFirst, hy, if_false]
      exact List.Forall₂.cons (Or.inl rfl) (ih h)

theorem append_singleton_ne (l : List α) (x : α) : l ++ [x] ≠ l := by
  intro h
  have := congrArg List.length h
  simp at this

/-! ### Characterization of dompet_bowar booking creation -/

theorem dompet_ne_bank : (("dompet_bowar" : String) == "bank_transfer") = false := by
  decide

theorem dompet_beq_self : (("dompet_bowar" : String) == "dompet_bowar") = true := by
  decide

theorem createBookingTrx_insufficient (db : DB) (now : Nat) (user : User)
    (r : CreateReq) (isMember : Bool) (pph total : Int)
    (hm : r.paymentMethod = "dompet_bowar")
    (hno : ∀ w, db.wallets.find? (walletKey user.id r.warnetId) = some w →
      w.balance < total) :
    createBookingTrx db now user r isMember pph total =
      (Resp.badRequest "insufficient-balance", db) := by
  unfold createBookingTrx
  rw [hm]
  simp only [dompet_beq_self, if_true]
  cases hw : db.wallets.find? (walletKey user.id r.warnetId) with
  | none => rfl
  | some w => simp [hno w hw]

theorem createBookingTrx_success (db : DB) (now : Nat) (user : User)
    (r : CreateReq) (isMember : Bool) (pph total : Int) (w : CafeWallet)
    (hm : r.paymentMethod = "dompet_bowar")
    (hw : db.wallets.find? (walletKey user.id r.warnetId) = some w)
    (hb : ¬w.balance < total) :
    createBookingTrx db now user r isMember pph total =
      (Resp.created db.nextBookingId, dompetSuccessDB db now user r isMember pph total) := by
  unfold createBookingTrx
  rw [hm]
  simp only [dompet_beq_self, dompet_ne_bank, if_true, if_false, hw, hb,
    Bool.false_eq_true]
  rfl

/-- When the guards before the PC check pass and the PC is not under
maintenance, `createBooking` reduces to the transactional block with the
computed prices. -/
theorem createBooking_toTrx_eq (db : DB) (now : Nat) (user : User)
    (r : CreateReq) (warnet : Warnet)
    (hmiss : createMissingField r = false)
    (hb1 : (r.paymentMethod == "bank_transfer" && r.paymentAccountName == "") = false)
    (hb2 : (r.paymentMethod == "bank_transfer" && !r.paymentProofImage) = false)
    (hmem : (isMemberBookingFor user r && decide (r.duration ≤ 1)) = false)
    (hwn : db.warnets.find? (fun w => w.id == r.warnetId) = some warnet)
    (hpc : ∀ pc, db.pcs.find? (pcKey r.warnetId r.pcNumber) = some pc →
      ¬pc.status = PcStatus.maintenance) :
    createBooking db now user r =
      createBookingTrx db now user r (isMemberBookingFor user r)
        (createPricePerHour warnet user r) (createTotalPrice warnet user r) := by
  unfold createBooking
  simp only [hmiss, hb1, hb2, Bool.false_eq_true, if_false, hmem, hwn]
  unfold createPricePerHour createTotalPrice
  cases hfind : db.pcs.find? (pcKey r.warnetId r.pcNumber) with
  | none => rfl
  | some pc =>
    have : (pc.status == PcStatus.maintenance) = false := by
      have := hpc pc hfind
      simp [this]
    simp only [this, Bool.false_eq_true, if_false]
    rfl

/-- With the same guards, a PC record under maintenance makes
`createBooking` return the maintenance rejection with no state change. -/
theorem createBooking_pc_maintenance (db : DB) (now : Nat) (user : User)
    (r : CreateReq) (warnet : Warnet) (pc : Pc)
    (hmiss : createMissingField r = false)
    (hb1 : (r.paymentMethod == "bank_transfer" && r.paymentAccountName == "") = false)
    (hb2 : (r.paymentMethod == "bank_transfer" && !r.paymentProofImage) = false)
    (hmem : (isMemberBookingFor user r && decide (r.duration ≤ 1)) = false)
    (hwn : db.warnets.find? (fun w => w.id == r.warnetId) = some warnet)
    (hfind : db.pcs.find? (pcKey r.warnetId r.pcNumber) = some pc)
    (hstat : pc.status = PcStatus.maintenance) :
    createBooking db now user r = (Resp.badRequest "pc-maintenance", db) := by
  unfold createBooking
  simp only [hmiss, hb1, hb2, Bool.false_eq_true, if_false, hmem, hwn, hfind, hstat,
    beq_self_eq_true, if_true]

/-- The transactional block only ever answers with the created booking or
the insufficient-balance rejection. -/
theorem createBookingTrx_fst (db : DB) (now : Nat) (user : User) (r : CreateReq)
    (isMember : Bool) (pph total : Int) :
    (createBookingTrx db now user r isMember pph total).1 = Resp.created db.nextBookingId ∨
    (createBookingTrx db now user r isMember pph total).1 =
      Resp.badRequest "insufficient-balance" := by
  unfold createBookingTrx
  by_cases hd : (r.paymentMethod == "dompet_bowar") = true
  · rw [if_pos hd]
    cases hw : db.wallets.find? (walletKey user.id r.warnetId) with
    | none => right; rfl
    | some w =>
      by_cases hb : w.balance < total
      · right; simp [hb]
      · left; simp [hb]
  · rw [if_neg hd]
    left; rfl

/-! ### Claim theorems -/

/-- C1: For a booking-creation request with paymentMethod `dompet_bowar`
that passes the earlier validations, an absent CafeWallet or a balance
below the computed total price yields a 400 response with the database
completely unchanged (no booking, no wallet debit, no transaction record,
no PC change); otherwise the wallet debit by `total_price`, the completed
payment transaction, the paid/active booking and the occupied-PC upsert
all take effect together, in one successor state. -/
theorem C1_dompet_creation_atomic (db : DB) (now : Nat) (user : User)
    (r : CreateReq) (warnet : Warnet)
    (hmiss : createMissingField r = false)
    (hm : r.paymentMethod = "dompet_bowar")
    (hmem : (isMemberBookingFor user r && decide (r.duration ≤ 1)) = false)
    (hwn : db.warnets.find? (fun w => w.id == r.warnetId) = some warnet)
    (hpc : ∀ pc, db.pcs.find? (pcKey r.warnetId r.pcNumber) = some pc →
      ¬pc.status = PcStatus.maintenance) :
    (db.wallets.find? (walletKey user.id r.warnetId) = none →
      createBooking db now user r = (Resp.badRequest "insufficient-balance", db)) ∧
    (∀ w, db.wallets.find? (walletKey user.id r.warnetId) = some w →
      w.balance < createTotalPrice warnet user r →
      createBooking db now user r = (Resp.badRequest "insufficient-balance", db)) ∧
    (∀ w, db.wallets.find? (walletKey user.id r.warnetId) = some w →
      ¬w.balance < createTotalPrice warnet user r →
      createBooking db now user r =
        (Resp.created db.nextBookingId,
         dompetSuccessDB db now user r (isMemberBookingFor user r)
           (createPricePerHour warnet user r) (createTotalPrice warnet user r))) := by
  have hb1 : (r.paymentMethod == "bank_transfer" && r.paymentAccountName == "") = false := by
    rw [hm]
    simp [dompet_ne_bank]
  have hb2 : (r.paymentMethod == "bank_transfer" && !r.paymentProofImage) = false := by
    rw [hm]
    simp [dompet_ne_bank]
  rw [createBooking_toTrx_eq db now user r warnet hmiss hb1 hb2 hmem hwn hpc]
  refine ⟨?_, ?_, ?_⟩
  · intro hnone
    exact createBookingTrx_insufficient db now user r _ _ _ hm
      (fun w hw => by rw [hnone] at hw; cases hw)
  · intro w hw hlt
    exact createBookingTrx_insufficient db now user r _ _ _ hm
      (fun w' hw' => by rw [hw] at hw'; injection hw' with he; subst he; exact hlt)
  · intro w hw hge
    exact createBookingTrx_success db now user r _ _ _ w hm hw hge

theorem C1_dompet_creation_atomic_witness :
    createMissingField fxReq = false ∧
    ¬fxWallet.balance < createTotalPrice fxWarnet fxUser fxReq ∧
    createBooking fxDB 0 fxUser fxReq =
      (Resp.created fxDB.nextBookingId,
       dompetSuccessDB fxDB 0 fxUser fxReq (isMemberBookingFor fxUser fxReq)
         (createPricePerHour fxWarnet fxUser fxReq)
         (createTotalPrice fxWarnet fxUser fxReq)) := by
  refine ⟨by decide, by decide, ?_⟩
  exact (C1_dompet_creation_atomic fxDB 0 fxUser fxReq fxWarnet (by decide) rfl
      (by decide) (by decide) (fun pc h => by simp [fxDB] at h)).2.2
    fxWallet (by decide) (by decide)

/-- C10: Booking creation rejects a PC only when an existing Pc record for
(warnetId, pcNumber) is under maintenance (first conjunct, an iff given
the earlier validations pass); occupied or missing records do not block,
so a second wallet-paid booking for the same (warnet, pc, date, time) can
succeed while the first is still active, overwriting the Pc record's
current_booking_id with the newer booking (second conjunct, a concrete
two-creation run). -/
theorem C10_pc_guard_and_double_booking (db : DB) (now : Nat) (user : User)
    (r : CreateReq) (warnet : Warnet)
    (hmiss : createMissingField r = false)
    (hb1 : (r.paymentMethod == "bank_transfer" && r.paymentAccountName == "") = false)
    (hb2 : (r.paymentMethod == "bank_transfer" && !r.paymentProofImage) = false)
    (hmem : (isMemberBookingFor user r && decide (r.duration ≤ 1)) = false)
    (hwn : db.warnets.find? (fun w => w.id == r.warnetId) = some warnet) :
    ((createBooking db now user r).1 = Resp.badRequest "pc-maintenance" ↔
      ∃ pc, db.pcs.find? (pcKey r.warnetId r.pcNumber) = some pc ∧
        pc.status = PcStatus.maintenance) ∧
    ((createBooking fxDoubleDB 0 fxUser fxReq).1 = Resp.created 1 ∧
     (createBooking (createBooking fxDoubleDB 0 fxUser fxReq).2 10 fxUser fxReq).1 =
       Resp.created 2 ∧
     ((createBooking (createBooking fxDoubleDB 0 fxUser fxReq).2 10 fxUser
         fxReq).2.bookings.find? (fun b => b.id == 1)).map Booking.status =
       some BookingStatus.active ∧
     ((createBooking (createBooking fxDoubleDB 0 fxUser fxReq).2 10 fxUser
         fxReq).2.pcs.find? (pcKey 1 3)).map Pc.current_booking_id =
       some (some 2)) := by
  constructor
  · constructor
    · intro hres
      cases hfind : db.pcs.find? (pcKey r.warnetId r.pcNumber) with
      | none =>
        exfalso
        rw [createBooking_toTrx_eq db now user r warnet hmiss hb1 hb2 hmem hwn
          (fun pc h => by rw [hfind] at h; cases h)] at hres
        rcases createBookingTrx_fst db now user r (isMemberBookingFor user r)
          (createPricePerHour warnet user r) (createTotalPrice warnet user r) with h | h
        · rw [h] at hres; cases hres
        · rw [h] at hres; injection hres with hs; exact absurd hs (by decide)
      | some pc =>
        by_cases hstat : pc.status = PcStatus.maintenance
        · exact ⟨pc, rfl, hstat⟩
        · exfalso
          rw [createBooking_toTrx_eq db now user r warnet hmiss hb1 hb2 hmem hwn
            (fun pc' h => by rw [hfind] at h; injection h with he; subst he; exact hstat)]
            at hres
          rcases createBookingTrx_fst db now user r (isMemberBookingFor user r)
            (createPricePerHour warnet user r) (createTotalPrice warnet user r) with h | h
          · rw [h] at hres; cases hres
          · rw [h] at hres; injection hres with hs; exact absurd hs (by decide)
    · rintro ⟨pc, hfind, hstat⟩
      rw [createBooking_pc_maintenance db now user r warnet pc hmiss hb1 hb2 hmem hwn
        hfind hstat]
  · exact ⟨by decide, by decide, by decide, by decide⟩

theorem C10_pc_guard_and_double_booking_witness :
    createMissingField fxReq = false ∧
    ((createBooking fxMaintDB 0 fxUser fxReq).1 = Resp.badRequest "pc-maintenance" ↔
      ∃ pc, fxMaintDB.pcs.find? (pcKey fxReq.warnetId fxReq.pcNumber) = some pc ∧
        pc.status = PcStatus.maintenance) := by
  refine ⟨by decide, ?_⟩
  exact (C10_pc_guard_and_double_booking fxMaintDB 0 fxUser fxReq fxWarnet (by decide)
    (by decide) (by decide) (by decide) (by decide)).1

/-- C4: For a cancellation request on an existing booking, a request by a
non-owner is rejected with 403 and changes nothing, and a request by the
owner is accepted (200) exactly when now is not past can_cancel_until and
the status is neither cancelled nor completed.  (`canCancel` is modelled
from the spec, the `Booking` model file not being among the sources.) -/
theorem C4_cancel_acceptance (db : DB) (now : Nat) (user : User) (bid : Nat)
    (b : Booking)
    (hfind : db.bookings.find? (fun x => x.id == bid) = some b) :
    (b.user_id ≠ user.id →
      cancelBooking db now user bid = (Resp.forbidden "not-booking-owner", db)) ∧
    (b.user_id = user.id →
      ((cancelBooking db now user bid).1 = Resp.ok ↔
        (now ≤ b.can_cancel_until ∧ b.status ≠ BookingStatus.cancelled ∧
         b.status ≠ BookingStatus.completed))) := by
  constructor
  · intro hown
    have hbne : (b.user_id != user.id) = true := by simp [hown]
    unfold cancelBooking
    rw [hfind]
    simp only [hbne, if_true]
  · intro hown
    have hbne : (b.user_id != user.id) = false := by simp [hown]
    unfold cancelBooking
    rw [hfind]
    simp only [hbne, Bool.false_eq_true, if_false]
    by_cases h1 : (b.status == BookingStatus.cancelled) = true
    · rw [if_pos h1]
      simp only [beq_iff_eq] at h1
      constructor
      · intro h; cases h
      · rintro ⟨-, h2, -⟩; exact absurd h1 h2
    · rw [if_neg h1]
      simp only [beq_iff_eq] at h1
      by_cases h2 : (b.status == BookingStatus.completed) = true
      · rw [if_pos h2]
        simp only [beq_iff_eq] at h2
        constructor
        · intro h; cases h
        · rintro ⟨-, -, h3⟩; exact absurd h2 h3
      · rw [if_neg h2]
        simp only [beq_iff_eq] at h2
        by_cases h3 : canCancel b now = true
        · have hnot : (!canCancel b now) = false := by simp [h3]
          simp only [hnot, Bool.false_eq_true, if_false]
          simp only [canCancel, decide_eq_true_eq] at h3
          exact ⟨fun _ => ⟨h3, h1, h2⟩, fun _ => trivial⟩
        · have hnot : (!canCancel b now) = true := by
            simp only [Bool.not_eq_true] at h3
            simp [h3]
          simp only [hnot, if_true]
          constructor
          · intro h; cases h
          · rintro ⟨hle, -, -⟩
            exact absurd (by simp [canCancel, hle]) h3

theorem C4_cancel_acceptance_witness :
    fxBookingDB.bookings.find? (fun x => x.id == 1) = some fxPendingBooking ∧
    fxPendingBooking.user_id = fxUser.id ∧
    ((cancelBooking fxBookingDB 60000 fxUser 1).1 = Resp.ok ↔
      (60000 ≤ fxPendingBooking.can_cancel_until ∧
       fxPendingBooking.status ≠ BookingStatus.cancelled ∧
       fxPendingBooking.status ≠ BookingStatus.completed)) := by
  refine ⟨by decide, by decide, ?_⟩
  exact (C4_cancel_acceptance fxBookingDB 60000 fxUser 1 fxPendingBooking
    (by decide)).2 (by decide)

/-- C7: An operator approval request for a booking (or a topup
transaction) whose warnet differs from the operator's warnet is answered
with 403 forbidden and leaves the database exactly as it was. -/
theorem C7_wrong_warnet_forbidden (db : DB) (now : Nat) (operatorUser : User)
    (bid : Nat) (b : Booking) (tid : Nat) (txn : BowarTransaction)
    (hrole : operatorUser.role = Role.operator)
    (hb : db.bookings.find? (fun x => x.id == bid) = some b)
    (hbw : some b.warnet_id ≠ operatorUser.warnet_id)
    (ht : db.txns.find? (fun t => t.id == tid) = some txn)
    (htw : operatorUser.warnet_id ≠ txn.warnet_id) :
    operatorApproveBooking db now operatorUser bid =
      (Resp.forbidden "wrong-warnet", db) ∧
    approveTopup db now operatorUser tid = (Resp.forbidden "wrong-warnet", db) := by
  have hrne : (operatorUser.role != Role.operator) = false := by simp [hrole]
  constructor
  · unfold operatorApproveBooking
    rw [hb]
    simp only [hrne, Bool.false_eq_true, if_false]
    have : (some b.warnet_id != operatorUser.warnet_id) = true := by simp [hbw]
    simp only [this, if_true]
  · unfold approveTopup
    rw [ht]
    simp only [hrne, Bool.false_eq_true, if_false]
    have : (operatorUser.warnet_id != txn.warnet_id) = true := by simp [htw]
    simp only [this, if_true]

theorem C7_wrong_warnet_forbidden_witness :
    fxOperatorB.role = Role.operator ∧
    some fxPendingBooking.warnet_id ≠ fxOperatorB.warnet_id ∧
    operatorApproveBooking fxCrossDB 0 fxOperatorB 1 =
      (Resp.forbidden "wrong-warnet", fxCrossDB) ∧
    approveTopup fxCrossDB 0 fxOperatorB 1 =
      (Resp.forbidden "wrong-warnet", fxCrossDB) := by
  refine ⟨rfl, by decide, ?_⟩
  exact C7_wrong_warnet_forbidden fxCrossDB 0 fxOperatorB 1 fxPendingBooking 1 fxTopup
    rfl (by decide) (by decide) (by decide) (by decide)

/-- C8 counterexample: with development mode off, the 500 body of
`BookingController.cancel` still carries the stack trace in its
`details` field, refuting "outside development mode no error response
exposes a stack trace". -/
theorem C8_stack_trace_leak_counterexample :
    (bookingCancelErrorBody false "boom" "trace").details = some "trace" ∧
    (bookingCancelErrorBody false "boom" "trace").details ≠ none := by
  exact ⟨rfl, by decide⟩

/-- C8 (amended): every unhandled-error response carries a user-facing
message, but raw internal details are not consistently gated on
development mode.  Only the index and topup handlers of the transaction
controller gate their `error` field on development mode (and no handler
ever writes a stack trace into `details` except booking cancel); the
topup handler nevertheless returns the raw error message as the
user-facing message in every mode whenever it is non-empty; the
payment/refund/approve/reject handlers expose nothing; every handler of
the booking and operator-booking controllers includes the raw error
message in every mode; and the booking cancel handler additionally
includes the stack trace in every mode. -/
theorem C8_error_detail_exposure (dev : Bool) (msg stk : String) :
    ((bowarIndexErrorBody dev msg).error = if dev then some msg else none) ∧
    (bowarIndexErrorBody dev msg).details = none ∧
    ((bowarTopupErrorBody dev msg).error = if dev then some msg else none) ∧
    (bowarTopupErrorBody dev msg).details = none ∧
    ((bowarTopupErrorBody dev msg).message = msg ∨ msg = "") ∧
    bowarPaymentErrorBody.error = none ∧
    bowarPaymentErrorBody.details = none ∧
    bowarRefundErrorBody.error = none ∧
    bowarRefundErrorBody.details = none ∧
    bowarApproveErrorBody.error = none ∧
    bowarApproveErrorBody.details = none ∧
    bowarRejectErrorBody.error = none ∧
    bowarRejectErrorBody.details = none ∧
    (bookingCreateErrorBody dev msg).error = some msg ∧
    (bookingIndexErrorBody dev msg).error = some msg ∧
    (operatorPendingErrorBody dev msg).error = some msg ∧
    (operatorIndexErrorBody dev msg).error = some msg ∧
    (operatorApproveErrorBody dev msg).error = some msg ∧
    (operatorRejectErrorBody dev msg).error = some msg ∧
    (bookingCancelErrorBody dev msg stk).error = some msg ∧
    (bookingCancelErrorBody dev msg stk).details = some stk := by
  refine ⟨rfl, rfl, rfl, rfl, ?_, rfl, rfl, rfl, rfl, rfl, rfl, rfl, rfl, rfl,
    rfl, rfl, rfl, rfl, rfl, rfl, rfl⟩
  by_cases h : (msg == "") = true
  · right
    simpa using h
  · left
    simp only [bowarTopupErrorBody, h, Bool.false_eq_true, if_false]

/-- Find-or-create followed by credit changes exactly the looked-up
balance, by the credited amount. -/
theorem creditOrCreate_balance (wallets : List CafeWallet) (userId warnetId : Nat)
    (amount : Int) :
    listWalletBalance (walletCreditOrCreate wallets userId warnetId amount)
        userId warnetId =
      listWalletBalance wallets userId warnetId + amount := by
  unfold listWalletBalance walletCreditOrCreate
  cases hf : wallets.find? (walletKey userId warnetId) with
  | some w =>
    rw [if_pos (any_of_find? hf)]
    rw [find?_updateFirst_self (walletKey userId warnetId)
      (fun w => { w with balance := w.balance + amount }) wallets (fun x hx => hx), hf]
    rfl
  | none =>
    rw [if_neg (by simp [not_any_of_find?_none hf])]
    rw [find?_append_of_none _ _ _ hf]
    simp [walletKey]

/-- C3: A pending topup transaction approved by an operator of the
matching warnet credits the owner's wallet by the amount, and marks the
transaction completed with approver and time (first two conjuncts); a
second approve of the same transaction then answers 400 and changes
nothing (third conjunct); and an approve attempt by any caller who is not
an operator, or whose warnet does not match, changes nothing (fourth
conjunct), so the amount is applied exactly once and only by a matching
operator. -/
theorem C3_topup_applied_exactly_once (db : DB) (now : Nat) (user : User)
    (tid : Nat) (txn : BowarTransaction) (owner : User)
    (ht : db.txns.find? (fun t => t.id == tid) = some txn)
    (hrole : user.role = Role.operator)
    (hw : user.warnet_id = txn.warnet_id)
    (hst : txn.status = TxnStatus.pending)
    (hty : txn.type = TxnType.topup)
    (howner : db.users.find? (fun u => u.id == txn.user_id) = some owner) :
    approveTopup db now user tid =
      (Resp.ok,
       { db with
         wallets := walletCreditOrCreate db.wallets owner.id (txn.warnet_id.getD 0)
           txn.amount
         txns := updateFirst (fun t => t.id == tid)
           (fun t => { t with status := TxnStatus.completed
                              approved_by := some user.id
                              approved_at := some now }) db.txns }) ∧
    walletBalance (approveTopup db now user tid).2 owner.id (txn.warnet_id.getD 0) =
      walletBalance db owner.id (txn.warnet_id.getD 0) + txn.amount ∧
    approveTopup (approveTopup db now user tid).2 now user tid =
      (Resp.badRequest "already-processed", (approveTopup db now user tid).2) ∧
    (∀ u2 : User, u2.role ≠ Role.operator ∨ u2.warnet_id ≠ txn.warnet_id →
      (approveTopup db now u2 tid).2 = db) := by
  have hrne : (user.role != Role.operator) = false := by simp [hrole]
  have hwne : (user.warnet_id != txn.warnet_id) = false := by simp [hw]
  have hstne : (txn.status != TxnStatus.pending) = false := by simp [hst]
  have htyne : (txn.type != TxnType.topup) = false := by simp [hty]
  have hsucc : approveTopup db now user tid =
      (Resp.ok,
       { db with
         wallets := walletCreditOrCreate db.wallets owner.id (txn.warnet_id.getD 0)
           txn.amount
         txns := updateFirst (fun t => t.id == tid)
           (fun t => { t with status := TxnStatus.completed
                              approved_by := some user.id
                              approved_at := some now }) db.txns }) := by
    unfold approveTopup
    rw [ht]
    simp only [hrne, hwne, hstne, htyne, Bool.false_eq_true, if_false, howner]
  refine ⟨hsucc, ?_, ?_, ?_⟩
  · rw [hsucc]
    exact creditOrCreate_balance db.wallets owner.id (txn.warnet_id.getD 0) txn.amount
  · rw [hsucc]
    unfold approveTopup
    have hfind2 : (updateFirst (fun t => t.id == tid)
        (fun t => { t with status := TxnStatus.completed
                           approved_by := some user.id
                           approved_at := some now }) db.txns).find?
        (fun t => t.id == tid) =
        some { txn with status := TxnStatus.completed
                        approved_by := some user.id
                        approved_at := some now } := by
      rw [find?_updateFirst_self (fun t => t.id == tid)
        (fun t => { t with status := TxnStatus.completed
                           approved_by := some user.id
                           approved_at := some now }) db.txns (fun x hx => hx), ht]
      rfl
    rw [hfind2]
    have hw2 : (user.warnet_id != txn.warnet_id) = false := hwne
    simp only [hrne, Bool.false_eq_true, if_false, hw2]
    rfl
  · intro u2 hu2
    by_cases hr2 : (u2.role != Role.operator) = true
    · unfold approveTopup
      rw [if_pos hr2]
    · have hr2e : u2.role = Role.operator := by
        simpa using hr2
      have hwm : u2.warnet_id ≠ txn.warnet_id := by
        rcases hu2 with h | h
        · exact absurd hr2e h
        · exact h
      unfold approveTopup
      rw [ht]
      simp only [hr2, Bool.false_eq_true, if_false]
      have : (u2.warnet_id != txn.warnet_id) = true := by simp [hwm]
      simp only [this, if_true]

theorem C3_topup_applied_exactly_once_witness :
    fxTopupDB.txns.find? (fun t => t.id == 1) = some fxTopup ∧
    fxTopup.status = TxnStatus.pending ∧
    walletBalance (approveTopup fxTopupDB 99 fxOperatorA 1).2 fxUser.id
        (fxTopup.warnet_id.getD 0) =
      walletBalance fxTopupDB fxUser.id (fxTopup.warnet_id.getD 0) + fxTopup.amount := by
  refine ⟨by decide, rfl, ?_⟩
  exact (C3_topup_applied_exactly_once fxTopupDB 99 fxOperatorA 1 fxTopup fxUser
    (by decide) rfl rfl rfl rfl (by decide)).2.1

/-- C9: For any authenticated caller and any positive amount, the refund
endpoint credits the caller's own wallet for the referenced booking's
warnet (creating it when missing) and appends a completed refund
transaction — with no hypothesis that the caller owns the booking, that
the booking was paid or cancelled, or that the amount matches any prior
payment. -/
theorem C9_refund_without_verification (db : DB) (user : User) (bid : Nat)
    (b : Booking) (amount : Int)
    (hpos : 0 < amount)
    (hb : db.bookings.find? (fun x => x.id == bid) = some b) :
    (bowarRefund db user (some bid) amount).1 = Resp.created db.nextTxnId ∧
    walletBalance (bowarRefund db user (some bid) amount).2 user.id b.warnet_id =
      walletBalance db user.id b.warnet_id + amount ∧
    (bowarRefund db user (some bid) amount).2.txns =
      db.txns ++ [⟨db.nextTxnId, user.id, .refund, amount, some bid, some b.warnet_id,
        .completed, none, none, none⟩] := by
  have hnle : ¬amount ≤ 0 := not_le.mpr hpos
  have heq : bowarRefund db user (some bid) amount =
      (Resp.created db.nextTxnId,
       { db with
         wallets :=
           match db.wallets.find? (walletKey user.id b.warnet_id) with
           | some _ => updateFirst (walletKey user.id b.warnet_id)
               (fun w => { w with balance := w.balance + amount }) db.wallets
           | none => db.wallets ++ [⟨user.id, b.warnet_id, amount, 0, false⟩]
         txns := db.txns ++ [⟨db.nextTxnId, user.id, .refund, amount, some bid,
           some b.warnet_id, .completed, none, none, none⟩]
         nextTxnId := db.nextTxnId + 1 }) := by
    unfold bowarRefund
    rw [if_neg hnle]
    simp only [hb]
    cases hf : db.wallets.find? (walletKey user.id b.warnet_id) <;> simp [hf]
  refine ⟨by rw [heq], ?_, by rw [heq]⟩
  rw [heq]
  unfold walletBalance listWalletBalance
  cases hf : db.wallets.find? (walletKey user.id b.warnet_id) with
  | some w =>
    simp only [hf]
    rw [find?_updateFirst_self (walletKey user.id b.warnet_id)
      (fun w => { w with balance := w.balance + amount }) db.wallets
      (fun x hx => hx), hf]
    rfl
  | none =>
    simp only [hf]
    rw [find?_append_of_none _ _ _ hf]
    simp [walletKey]

theorem C9_refund_without_verification_witness :
    0 < (7000 : Int) ∧
    fxPendingBooking.user_id ≠ fxUser2.id ∧
    walletBalance (bowarRefund fxBookingDB fxUser2 (some 1) 7000).2 fxUser2.id
        fxPendingBooking.warnet_id =
      walletBalance fxBookingDB fxUser2.id fxPendingBooking.warnet_id + 7000 := by
  refine ⟨by decide, by decide, ?_⟩
  exact (C9_refund_without_verification fxBookingDB fxUser2 1 fxPendingBooking 7000
    (by decide) (by decide)).2.1

/-! ### Wallet changes and ledger writes (C6) -/

theorem createBookingTrx_wallet_logged (db : DB) (now : Nat) (user : User)
    (r : CreateReq) (isMember : Bool) (pph total : Int) :
    (createBookingTrx db now user r isMember pph total).2.wallets = db.wallets ∨
    (createBookingTrx db now user r isMember pph total).2.txns ≠ db.txns := by
  unfold createBookingTrx
  by_cases hd : (r.paymentMethod == "dompet_bowar") = true
  · rw [if_pos hd]
    cases hw : db.wallets.find? (walletKey user.id r.warnetId) with
    | none => left; rfl
    | some w =>
      by_cases hbal : w.balance < total
      · left; simp [hbal]
      · right
        simp only [hbal, if_false]
        exact append_singleton_ne db.txns _
  · rw [if_neg hd]
    left; rfl

theorem createBooking_wallet_logged (db : DB) (now : Nat) (user : User)
    (r : CreateReq) :
    (createBooking db now user r).2.wallets = db.wallets ∨
    (createBooking db now user r).2.txns ≠ db.txns := by
  unfold createBooking
  by_cases h1 : createMissingField r = true
  · rw [if_pos h1]; left; rfl
  · rw [if_neg h1]
    by_cases h2 : (r.paymentMethod == "bank_transfer" && r.paymentAccountName == "") = true
    · rw [if_pos h2]; left; rfl
    · rw [if_neg h2]
      by_cases h3 : (r.paymentMethod == "bank_transfer" && !r.paymentProofImage) = true
      · rw [if_pos h3]; left; rfl
      · rw [if_neg h3]
        by_cases h4 : (isMemberBookingFor user r && decide (r.duration ≤ 1)) = true
        · simp only [h4, if_true]; left; trivial
        · simp only [h4, Bool.false_eq_true, if_false]
          cases hwn : db.warnets.find? (fun w => w.id == r.warnetId) with
          | none => left; rfl
          | some warnet =>
            cases hpc : db.pcs.find? (pcKey r.warnetId r.pcNumber) with
            | none => exact createBookingTrx_wallet_logged db now user r _ _ _
            | some pc =>
              by_cases hst : (pc.status == PcStatus.maintenance) = true
              · simp only [hst, if_true]; left; trivial
              · simp only [hst, Bool.false_eq_true, if_false]
                exact createBookingTrx_wallet_logged db now user r _ _ _

theorem cancelBooking_wallet_logged (db : DB) (now : Nat) (user : User)
    (bid : Nat) :
    (cancelBooking db now user bid).2.wallets = db.wallets ∨
    (cancelBooking db now user bid).2.txns ≠ db.txns := by
  unfold cancelBooking
  cases hf : db.bookings.find? (fun x => x.id == bid) with
  | none => left; rfl
  | some b =>
    by_cases h1 : (b.user_id != user.id) = true
    · left; simp [h1]
    · by_cases h2 : (b.status == BookingStatus.cancelled) = true
      · left; simp [h1, h2]
      · by_cases h3 : (b.status == BookingStatus.completed) = true
        · left; simp [h1, h2, h3]
        · by_cases h4 : (!canCancel b now) = true
          · left; simp [h1, h2, h3, h4]
          · by_cases h5 : (b.payment_status == PaymentStatus.paid) = true
            · cases ht : db.txns.find? (fun t =>
                  t.booking_id == some b.id && t.type == TxnType.payment) with
              | none => left; simp [h1, h2, h3, h4, h5, ht]
              | some t =>
                right
                simp only [h1, h2, h3, h4, h5, ht, Bool.false_eq_true, if_false,
                  if_true]
                exact append_singleton_ne db.txns _
            · left; simp [h1, h2, h3, h4, h5]

theorem bowarPayment_wallet_logged (db : DB) (user : User) (bid : Nat)
    (amount : Int) :
    (bowarPayment db user bid amount).2.wallets = db.wallets ∨
    (bowarPayment db user bid amount).2.txns ≠ db.txns := by
  unfold bowarPayment
  by_cases h1 : (bid == 0 || amount == 0) = true
  · rw [if_pos h1]; left; rfl
  · rw [if_neg h1]
    cases hb : db.bookings.find? (fun b => b.id == bid) with
    | none => left; rfl
    | some booking =>
      by_cases h2 : (booking.user_id != user.id) = true
      · left; simp [h2]
      · cases hw : db.wallets.find? (walletKey user.id booking.warnet_id) with
        | none => left; simp [h2, hw]
        | some w =>
          by_cases h3 : w.balance < amount
          · left; simp [h2, hw, h3]
          · right
            simp only [h2, hw, h3, Bool.false_eq_true, if_false]
            exact append_singleton_ne db.txns _

theorem bowarRefund_wallet_logged (db : DB) (user : User) (bid : Option Nat)
    (amount : Int) :
    (bowarRefund db user bid amount).2.wallets = db.wallets ∨
    (bowarRefund db user bid amount).2.txns ≠ db.txns := by
  unfold bowarRefund
  by_cases h1 : amount ≤ 0
  · rw [if_pos h1]; left; rfl
  · rw [if_neg h1]
    right
    exact append_singleton_ne db.txns _

theorem approveTopup_wallet_logged (db : DB) (now : Nat) (user : User)
    (tid : Nat) :
    (approveTopup db now user tid).2.wallets = db.wallets ∨
    (approveTopup db now user tid).2.txns ≠ db.txns := by
  unfold approveTopup
  by_cases h1 : (user.role != Role.operator) = true
  · rw [if_pos h1]; left; rfl
  · rw [if_neg h1]
    cases ht : db.txns.find? (fun t => t.id == tid) with
    | none => left; rfl
    | some txn =>
      by_cases h2 : (user.warnet_id != txn.warnet_id) = true
      · left; simp [h2]
      · by_cases h3 : (txn.status != TxnStatus.pending) = true
        · left; simp [h2, h3]
        · by_cases h4 : (txn.type != TxnType.topup) = true
          · left; simp [h2, h3, h4]
          · cases hu : db.users.find? (fun u => u.id == txn.user_id) with
            | none => left; simp [h2, h3, h4, hu]
            | some owner =>
              right
              simp only [h2, h3, h4, hu, Bool.false_eq_true, if_false]
              have hpend : txn.status = TxnStatus.pending := by
                simpa using h3
              apply updateFirst_ne_of_find? ht
              intro hcontra
              have hs := congrArg BowarTransaction.status hcontra
              rw [hpend] at hs
              cases hs

/-- C6 counterexample: the topup-approval handler's wallet write is not
wrapped in a database transaction together with its ledger write — the
durable state after the wallet write alone has a changed wallet and an
untouched transaction log, and the complete run continues from exactly
that wallet state. -/
theorem C6_wallet_write_not_atomic_counterexample :
    (approveTopupAfterWalletWrite fxTopupDB fxOperatorA 1).wallets ≠
      fxTopupDB.wallets ∧
    (approveTopupAfterWalletWrite fxTopupDB fxOperatorA 1).txns = fxTopupDB.txns ∧
    (approveTopup fxTopupDB 99 fxOperatorA 1).2.wallets =
      (approveTopupAfterWalletWrite fxTopupDB fxOperatorA 1).wallets := by
  exact ⟨by decide, by decide, by decide⟩

/-- C6 (amended): in complete (uninterrupted) runs, every operation that
changes some CafeWallet balance also writes to the BowarTransaction log in
the same request; only the booking controller pairs the two writes inside
a database transaction, while payment, refund and topup-approval perform
them as separate, non-transactional writes. -/
theorem C6_wallet_change_logged (db : DB) (now : Nat) (user : User) :
    (∀ r, (createBooking db now user r).2.wallets ≠ db.wallets →
      (createBooking db now user r).2.txns ≠ db.txns) ∧
    (∀ bid, (cancelBooking db now user bid).2.wallets ≠ db.wallets →
      (cancelBooking db now user bid).2.txns ≠ db.txns) ∧
    (∀ bid amount, (bowarPayment db user bid amount).2.wallets ≠ db.wallets →
      (bowarPayment db user bid amount).2.txns ≠ db.txns) ∧
    (∀ bid amount, (bowarRefund db user bid amount).2.wallets ≠ db.wallets →
      (bowarRefund db user bid amount).2.txns ≠ db.txns) ∧
    (∀ tid, (approveTopup db now user tid).2.wallets ≠ db.wallets →
      (approveTopup db now user tid).2.txns ≠ db.txns) := by
  refine ⟨fun r h => ?_, fun bid h => ?_, fun bid amount h => ?_,
    fun bid amount h => ?_, fun tid h => ?_⟩
  · rcases createBooking_wallet_logged db now user r with he | hne
    · exact absurd he h
    · exact hne
  · rcases cancelBooking_wallet_logged db now user bid with he | hne
    · exact absurd he h
    · exact hne
  · rcases bowarPayment_wallet_logged db user bid amount with he | hne
    · exact absurd he h
    · exact hne
  · rcases bowarRefund_wallet_logged db user bid amount with he | hne
    · exact absurd he h
    · exact hne
  · rcases approveTopup_wallet_logged db now user tid with he | hne
    · exact absurd he h
    · exact hne

theorem C6_wallet_change_logged_witness :
    (approveTopup fxTopupDB 99 fxOperatorA 1).2.wallets ≠ fxTopupDB.wallets ∧
    (approveTopup fxTopupDB 99 fxOperatorA 1).2.txns ≠ fxTopupDB.txns := by
  refine ⟨by decide, ?_⟩
  exact (C6_wallet_change_logged fxTopupDB 99 fxOperatorA).2.2.2.2 1 (by decide)

/-- Cancelling the booking produced by a successful wallet-paid creation,
within the window, succeeds, credits the debited wallet back by the
booking's total price, and appends the completed refund transaction. -/
theorem cancel_of_dompetSuccess (db : DB) (now now2 : Nat) (user : User)
    (r : CreateReq) (M : Bool) (P T : Int)
    (hfreshB : ∀ x ∈ db.bookings, x.id ≠ db.nextBookingId)
    (hfreshT : ∀ t ∈ db.txns, t.booking_id ≠ some db.nextBookingId)
    (hnow2 : now2 ≤ now + twoMinutesMs) :
    (cancelBooking (dompetSuccessDB db now user r M P T) now2 user db.nextBookingId).1 =
      Resp.ok ∧
    listWalletBalance (cancelBooking (dompetSuccessDB db now user r M P T) now2 user
        db.nextBookingId).2.wallets user.id r.warnetId =
      listWalletBalance (dompetSuccessDB db now user r M P T).wallets user.id
        r.warnetId + T ∧
    (cancelBooking (dompetSuccessDB db now user r M P T) now2 user
        db.nextBookingId).2.txns =
      (dompetSuccessDB db now user r M P T).txns ++
        [⟨db.nextTxnId + 1, user.id, .refund, T, some db.nextBookingId,
          some r.warnetId, .completed, none, none, none⟩] := by
  have hnoneB : db.bookings.find? (fun x => x.id == db.nextBookingId) = none := by
    rw [List.find?_eq_none]
    intro x hx
    simpa using hfreshB x hx
  have hfindB : (dompetSuccessDB db now user r M P T).bookings.find?
      (fun x => x.id == db.nextBookingId) =
      some (dompetPaidBooking db now user r M P T) := by
    show (db.bookings ++ [dompetPaidBooking db now user r M P T]).find?
      (fun x => x.id == db.nextBookingId) = _
    rw [find?_append_of_none _ _ _ hnoneB,
      List.find?_cons_of_pos _ (by simp [dompetPaidBooking])]
  have hnoneT : db.txns.find? (fun t =>
      t.booking_id == some (dompetPaidBooking db now user r M P T).id &&
      t.type == TxnType.payment) = none := by
    rw [List.find?_eq_none]
    intro t htm
    have h := hfreshT t htm
    simp [dompetPaidBooking, h]
  have hfindT : (dompetSuccessDB db now user r M P T).txns.find? (fun t =>
      t.booking_id == some (dompetPaidBooking db now user r M P T).id &&
      t.type == TxnType.payment) = some (dompetPaymentTxn db user r T) := by
    show (db.txns ++ [dompetPaymentTxn db user r T]).find? _ = _
    rw [find?_append_of_none _ _ _ hnoneT,
      List.find?_cons_of_pos _ (by simp [dompetPaymentTxn, dompetPaidBooking])]
  have hown : ((dompetPaidBooking db now user r M P T).user_id != user.id) = false := by
    simp [dompetPaidBooking]
  have hst1 : ((dompetPaidBooking db now user r M P T).status ==
      BookingStatus.cancelled) = false := rfl
  have hst2 : ((dompetPaidBooking db now user r M P T).status ==
      BookingStatus.completed) = false := rfl
  have hcc : (!canCancel (dompetPaidBooking db now user r M P T) now2) = false := by
    simp [canCancel, dompetPaidBooking, hnow2]
  have hpay : ((dompetPaidBooking db now user r M P T).payment_status ==
      PaymentStatus.paid) = true := rfl
  refine ⟨?_, ?_, ?_⟩
  · unfold cancelBooking
    rw [hfindB]
    simp only [hown, hst1, hst2, hcc, Bool.false_eq_true, if_false]
  · unfold cancelBooking
    rw [hfindB]
    simp only [hown, hst1, hst2, hcc, hpay, hfindT, Bool.false_eq_true, if_false,
      if_true]
    exact creditOrCreate_balance (dompetSuccessDB db now user r M P T).wallets
      user.id r.warnetId T
  · unfold cancelBooking
    rw [hfindB]
    simp only [hown, hst1, hst2, hcc, hpay, hfindT, Bool.false_eq_true, if_false,
      if_true]
    simp [dompetSuccessDB, dompetPaidBooking]

/-- C2: A booking created and paid via the internal wallet and then
cancelled by its owner within the window leaves the (user, warnet) wallet
balance exactly as it was before creation — creation debits total_price,
cancellation credits exactly total_price back — and the cancellation
appends a completed refund transaction for that amount. -/
theorem C2_wallet_roundtrip (db : DB) (now now2 : Nat) (user : User)
    (r : CreateReq) (warnet : Warnet) (w : CafeWallet)
    (hmiss : createMissingField r = false)
    (hm : r.paymentMethod = "dompet_bowar")
    (hmem : (isMemberBookingFor user r && decide (r.duration ≤ 1)) = false)
    (hwn : db.warnets.find? (fun x => x.id == r.warnetId) = some warnet)
    (hpc : ∀ pc, db.pcs.find? (pcKey r.warnetId r.pcNumber) = some pc →
      ¬pc.status = PcStatus.maintenance)
    (hww : db.wallets.find? (walletKey user.id r.warnetId) = some w)
    (hbal : ¬w.balance < createTotalPrice warnet user r)
    (hfreshB : ∀ x ∈ db.bookings, x.id ≠ db.nextBookingId)
    (hfreshT : ∀ t ∈ db.txns, t.booking_id ≠ some db.nextBookingId)
    (hnow2 : now2 ≤ now + twoMinutesMs) :
    (cancelBooking (createBooking db now user r).2 now2 user db.nextBookingId).1 =
      Resp.ok ∧
    walletBalance (cancelBooking (createBooking db now user r).2 now2 user
        db.nextBookingId).2 user.id r.warnetId =
      walletBalance db user.id r.warnetId ∧
    (cancelBooking (createBooking db now user r).2 now2 user db.nextBookingId).2.txns =
      (createBooking db now user r).2.txns ++
        [⟨db.nextTxnId + 1, user.id, .refund, createTotalPrice warnet user r,
          some db.nextBookingId, some r.warnetId, .completed, none, none, none⟩] := by
  have hb1 : (r.paymentMethod == "bank_transfer" && r.paymentAccountName == "") = false := by
    rw [hm]
    simp [dompet_ne_bank]
  have hb2 : (r.paymentMethod == "bank_transfer" && !r.paymentProofImage) = false := by
    rw [hm]
    simp [dompet_ne_bank]
  have hpair : (createBooking db now user r).2 =
      dompetSuccessDB db now user r (isMemberBookingFor user r)
        (createPricePerHour warnet user r) (createTotalPrice warnet user r) := by
    rw [createBooking_toTrx_eq db now user r warnet hmiss hb1 hb2 hmem hwn hpc,
      createBookingTrx_success db now user r _ _ _ w hm hww hbal]
  rw [hpair]
  obtain ⟨h1, h2, h3⟩ := cancel_of_dompetSuccess db now now2 user r
    (isMemberBookingFor user r) (createPricePerHour warnet user r)
    (createTotalPrice warnet user r) hfreshB hfreshT hnow2
  refine ⟨h1, ?_, h3⟩
  unfold walletBalance
  rw [h2]
  have hdeb : listWalletBalance (dompetSuccessDB db now user r
      (isMemberBookingFor user r) (createPricePerHour warnet user r)
      (createTotalPrice warnet user r)).wallets user.id r.warnetId =
      w.balance - createTotalPrice warnet user r := by
    show listWalletBalance (updateFirst (walletKey user.id r.warnetId)
      (fun x => { x with balance := x.balance - createTotalPrice warnet user r })
      db.wallets) user.id r.warnetId = _
    unfold listWalletBalance
    rw [find?_updateFirst_self (walletKey user.id r.warnetId)
      (fun x => { x with balance := x.balance - createTotalPrice warnet user r })
      db.wallets (fun x hx => hx), hww]
    rfl
  have hdb : listWalletBalance db.wallets user.id r.warnetId = w.balance := by
    unfold listWalletBalance
    rw [hww]
  rw [hdeb, hdb]
  omega

theorem C2_wallet_roundtrip_witness :
    ¬fxWallet.balance < createTotalPrice fxWarnet fxUser fxReq ∧
    (60000 ≤ 0 + twoMinutesMs) ∧
    walletBalance (cancelBooking (createBooking fxDB 0 fxUser fxReq).2 60000 fxUser
        fxDB.nextBookingId).2 fxUser.id fxReq.warnetId =
      walletBalance fxDB fxUser.id fxReq.warnetId := by
  refine ⟨by decide, by decide, ?_⟩
  exact (C2_wallet_roundtrip fxDB 0 60000 fxUser fxReq fxWarnet fxWallet (by decide)
    rfl (by decide) (by decide) (fun pc h => by simp [fxDB] at h) (by decide)
    (by decide) (by decide) (by decide) (by decide)).2.1

/-! ### State-machine helper lemmas (C5) -/

theorem stepOK_refl (b : Booking) : stepOK b b :=
  ⟨Or.inl rfl, Or.inl rfl⟩

theorem forall₂_refl_of (R : α → α → Prop) (h : ∀ a, R a a) (l : List α) :
    List.Forall₂ R l l := by
  induction l with
  | nil => exact List.Forall₂.nil
  | cons x xs ih => exact List.Forall₂.cons (h x) ih

theorem mem_updateFirst {p : α → Bool} {f : α → α} {l : List α} {x b : α}
    (hfind : l.find? p = some x) (hb : b ∈ updateFirst p f l) :
    b ∈ l ∨ b = f x := by
  induction l with
  | nil => simp [updateFirst] at hb
  | cons y ys ih =>
    by_cases hy : p y
    · simp only [List.find?_cons_of_pos _ hy, Option.some.injEq] at hfind
      subst hfind
      simp only [updateFirst, if_pos hy, List.mem_cons] at hb
      rcases hb with hb | hb
      · right; exact hb
      · left; exact List.mem_cons_of_mem _ hb
    · simp only [List.find?_cons_of_neg _ hy] at hfind
      simp only [updateFirst, if_neg hy, List.mem_cons] at hb
      rcases hb with hb | hb
      · left; exact hb ▸ List.mem_cons_self _ _
      · rcases ih hfind hb with h | h
        · left; exact List.mem_cons_of_mem _ h
        · right; exact h

theorem inv_and_step_of_eq (db : DB) (h : BookingInv db) (db' : DB)
    (he : db'.bookings = db.bookings) :
    BookingInv db' ∧ ExistingBookingsStep db db' := by
  constructor
  · intro b hb
    rw [he] at hb
    exact h b hb
  · unfold ExistingBookingsStep
    rw [he, List.take_length]
    exact forall₂_refl_of stepOK stepOK_refl db.bookings

theorem inv_and_step_of_append (db : DB) (h : BookingInv db) (db' : DB)
    (nb : Booking)
    (he : db'.bookings = db.bookings ++ [nb])
    (h1 : nb.status ≠ BookingStatus.completed)
    (h2 : nb.payment_status = PaymentStatus.rejected →
      nb.status = BookingStatus.cancelled) :
    BookingInv db' ∧ ExistingBookingsStep db db' := by
  constructor
  · intro b hb
    rw [he, List.mem_append] at hb
    rcases hb with hb | hb
    · exact h b hb
    · rw [List.mem_singleton] at hb
      subst hb
      exact ⟨h1, h2⟩
  · unfold ExistingBookingsStep
    rw [he, List.take_left]
    exact forall₂_refl_of stepOK stepOK_refl db.bookings

theorem inv_and_step_of_update (db : DB) (h : BookingInv db) (db' : DB)
    (p : Booking → Bool) (f : Booking → Booking) (x : Booking)
    (hfind : db.bookings.find? p = some x)
    (he : db'.bookings = updateFirst p f db.bookings)
    (h1 : (f x).status ≠ BookingStatus.completed)
    (h2 : (f x).payment_status = PaymentStatus.rejected →
      (f x).status = BookingStatus.cancelled)
    (h3 : stepOK x (f x)) :
    BookingInv db' ∧ ExistingBookingsStep db db' := by
  constructor
  · intro b hb
    rw [he] at hb
    rcases mem_updateFirst hfind hb with hmem | hfx
    · exact h b hmem
    · subst hfx
      exact ⟨h1, h2⟩
  · unfold ExistingBookingsStep
    rw [he, ← updateFirst_length p f db.bookings, List.take_length]
    refine (updateFirst_forall₂ f hfind).imp ?_
    intro a b hab
    rcases hab with hab | ⟨hax, hbf⟩
    · rw [hab]
      exact stepOK_refl a
    · rw [hax, hbf]
      exact h3

theorem createBookingTrx_inv_step (db : DB) (now : Nat) (user : User)
    (r : CreateReq) (isMember : Bool) (pph total : Int) (h : BookingInv db) :
    BookingInv (createBookingTrx db now user r isMember pph total).2 ∧
    ExistingBookingsStep db (createBookingTrx db now user r isMember pph total).2 := by
  unfold createBookingTrx
  by_cases hd : (r.paymentMethod == "dompet_bowar") = true
  · rw [if_pos hd]
    cases hw : db.wallets.find? (walletKey user.id r.warnetId) with
    | none => exact inv_and_step_of_eq db h _ rfl
    | some w =>
      by_cases hbal : w.balance < total
      · simp only [hbal, if_true]
        exact inv_and_step_of_eq db h _ rfl
      · simp only [hbal, if_false]
        refine inv_and_step_of_append db h _ _ rfl ?_ ?_
        · exact fun hco => nomatch hco
        · exact fun hco => nomatch hco
  · rw [if_neg hd]
    refine inv_and_step_of_append db h _ _ rfl ?_ ?_
    · exact fun hco => nomatch hco
    · exact fun hco => nomatch hco

theorem createBooking_inv_step (db : DB) (now : Nat) (user : User)
    (r : CreateReq) (h : BookingInv db) :
    BookingInv (createBooking db now user r).2 ∧
    ExistingBookingsStep db (createBooking db now user r).2 := by
  unfold createBooking
  by_cases h1 : createMissingField r = true
  · rw [if_pos h1]
    exact inv_and_step_of_eq db h _ rfl
  · rw [if_neg h1]
    by_cases h2 : (r.paymentMethod == "bank_transfer" && r.paymentAccountName == "") = true
    · rw [if_pos h2]
      exact inv_and_step_of_eq db h _ rfl
    · rw [if_neg h2]
      by_cases h3 : (r.paymentMethod == "bank_transfer" && !r.paymentProofImage) = true
      · rw [if_pos h3]
        exact inv_and_step_of_eq db h _ rfl
      · rw [if_neg h3]
        by_cases h4 : (isMemberBookingFor user r && decide (r.duration ≤ 1)) = true
        · simp only [h4, if_true]
          exact inv_and_step_of_eq db h _ rfl
        · simp only [h4, Bool.false_eq_true, if_false]
          cases hwn : db.warnets.find? (fun w => w.id == r.warnetId) with
          | none => exact inv_and_step_of_eq db h _ rfl
          | some warnet =>
            cases hpc : db.pcs.find? (pcKey r.warnetId r.pcNumber) with
            | none => exact createBookingTrx_inv_step db now user r _ _ _ h
            | some pc =>
              by_cases hst : (pc.status == PcStatus.maintenance) = true
              · simp only [hst, if_true]
                exact inv_and_step_of_eq db h _ rfl
              · simp only [hst, Bool.false_eq_true, if_false]
                exact createBookingTrx_inv_step db now user r _ _ _ h

theorem cancelBooking_inv_step (db : DB) (now : Nat) (user : User) (bid : Nat)
    (h : BookingInv db) :
    BookingInv (cancelBooking db now user bid).2 ∧
    ExistingBookingsStep db (cancelBooking db now user bid).2 := by
  unfold cancelBooking
  cases hf : db.bookings.find? (fun x => x.id == bid) with
  | none => exact inv_and_step_of_eq db h _ rfl
  | some b =>
    by_cases h1 : (b.user_id != user.id) = true
    · simp only [h1, if_true]
      exact inv_and_step_of_eq db h _ rfl
    · by_cases h2 : (b.status == BookingStatus.cancelled) = true
      · simp only [h1, h2, Bool.false_eq_true, if_false, if_true]
        exact inv_and_step_of_eq db h _ rfl
      · by_cases h3 : (b.status == BookingStatus.completed) = true
        · simp only [h1, h2, h3, Bool.false_eq_true, if_false, if_true]
          exact inv_and_step_of_eq db h _ rfl
        · by_cases h4 : (!canCancel b now) = true
          · simp only [h1, h2, h3, h4, Bool.false_eq_true, if_false, if_true]
            exact inv_and_step_of_eq db h _ rfl
          · simp only [h1, h2, h3, h4, Bool.false_eq_true, if_false]
            have hcanc : b.status ≠ BookingStatus.cancelled := by simpa using h2
            have hcomp : b.status ≠ BookingStatus.completed := by simpa using h3
            refine inv_and_step_of_update db h _ _ _ b hf rfl ?_ ?_ ?_
            · exact fun hco => nomatch hco
            · intro _
              rfl
            · exact ⟨Or.inl rfl, Or.inr (Or.inr ⟨hcanc, hcomp, rfl⟩)⟩

theorem operatorApproveBooking_inv_step (db : DB) (now : Nat)
    (operatorUser : User) (bid : Nat) (h : BookingInv db) :
    BookingInv (operatorApproveBooking db now operatorUser bid).2 ∧
    ExistingBookingsStep db (operatorApproveBooking db now operatorUser bid).2 := by
  unfold operatorApproveBooking
  by_cases h1 : (operatorUser.role != Role.operator) = true
  · rw [if_pos h1]
    exact inv_and_step_of_eq db h _ rfl
  · rw [if_neg h1]
    cases hf : db.bookings.find? (fun x => x.id == bid) with
    | none => exact inv_and_step_of_eq db h _ rfl
    | some b =>
      by_cases h2 : (some b.warnet_id != operatorUser.warnet_id) = true
      · simp only [h2, if_true]
        exact inv_and_step_of_eq db h _ rfl
      · by_cases h3 : (b.payment_status == PaymentStatus.paid) = true
        · simp only [h2, h3, Bool.false_eq_true, if_false, if_true]
          exact inv_and_step_of_eq db h _ rfl
        · by_cases h4 : (b.status == BookingStatus.cancelled) = true
          · simp only [h2, h3, h4, Bool.false_eq_true, if_false, if_true]
            exact inv_and_step_of_eq db h _ rfl
          · simp only [h2, h3, h4, Bool.false_eq_true, if_false]
            obtain ⟨hnc, hrej⟩ := h b (List.mem_of_find?_eq_some hf)
            have hpaid : b.payment_status ≠ PaymentStatus.paid := by simpa using h3
            have hcanc : b.status ≠ BookingStatus.cancelled := by simpa using h4
            refine inv_and_step_of_update db h _ _ _ b hf rfl ?_ ?_ ?_
            · exact fun hco => nomatch hco
            · exact fun hco => nomatch hco
            · constructor
              · cases hbp : b.payment_status with
                | pending => exact Or.inr ⟨rfl, Or.inl rfl⟩
                | paid => exact absurd hbp hpaid
                | rejected => exact absurd (hrej hbp) hcanc
              · cases hbs : b.status with
                | pending => exact Or.inr (Or.inl ⟨rfl, rfl⟩)
                | active => exact Or.inl rfl
                | cancelled => exact absurd hbs hcanc
                | completed => exact absurd hbs hnc

theorem operatorRejectBooking_inv_step (db : DB) (operatorUser : User)
    (bid : Nat) (h : BookingInv db) :
    BookingInv (operatorRejectBooking db operatorUser bid).2 ∧
    ExistingBookingsStep db (operatorRejectBooking db operatorUser bid).2 := by
  unfold operatorRejectBooking
  by_cases h1 : (operatorUser.role != Role.operator) = true
  · rw [if_pos h1]
    exact inv_and_step_of_eq db h _ rfl
  · rw [if_neg h1]
    cases hf : db.bookings.find? (fun x => x.id == bid) with
    | none => exact inv_and_step_of_eq db h _ rfl
    | some b =>
      by_cases h2 : (some b.warnet_id != operatorUser.warnet_id) = true
      · simp only [h2, if_true]
        exact inv_and_step_of_eq db h _ rfl
      · by_cases h3 : (b.payment_status == PaymentStatus.paid) = true
        · simp only [h2, h3, Bool.false_eq_true, if_false, if_true]
          exact inv_and_step_of_eq db h _ rfl
        · by_cases h4 : (b.status == BookingStatus.cancelled) = true
          · simp only [h2, h3, h4, Bool.false_eq_true, if_false, if_true]
            exact inv_and_step_of_eq db h _ rfl
          · simp only [h2, h3, h4, Bool.false_eq_true, if_false]
            obtain ⟨hnc, hrej⟩ := h b (List.mem_of_find?_eq_some hf)
            have hpaid : b.payment_status ≠ PaymentStatus.paid := by simpa using h3
            have hcanc : b.status ≠ BookingStatus.cancelled := by simpa using h4
            refine inv_and_step_of_update db h _ _ _ b hf rfl ?_ ?_ ?_
            · exact fun hco => nomatch hco
            · intro _
              rfl
            · constructor
              · cases hbp : b.payment_status with
                | pending => exact Or.inr ⟨rfl, Or.inr rfl⟩
                | paid => exact absurd hbp hpaid
                | rejected => exact absurd (hrej hbp) hcanc
              · exact Or.inr (Or.inr ⟨hcanc, hnc, rfl⟩)

theorem applyOp_inv_step (db : DB) (h : BookingInv db) (o : Op) :
    BookingInv (applyOp db o) ∧ ExistingBookingsStep db (applyOp db o) := by
  cases o with
  | create now u r => exact createBooking_inv_step db now u r h
  | cancel now u bid => exact cancelBooking_inv_step db now u bid h
  | approve now u bid => exact operatorApproveBooking_inv_step db now u bid h
  | reject u bid => exact operatorRejectBooking_inv_step db u bid h

theorem runOps_inv (ops : List Op) :
    ∀ db : DB, BookingInv db → BookingInv (runOps db ops) := by
  induction ops with
  | nil => exact fun _ h => h
  | cons o os ih => exact fun db h => ih (applyOp db o) (applyOp_inv_step db h o).1

/-- C5: Under any sequence of the implemented operations (create booking,
cancel booking, operator approve, operator reject), every existing
booking moves only along the allowed transitions: payment_status either
stays put or moves pending→paid / pending→rejected (hence each at most
once, and neither paid nor rejected is ever left), and status either
stays put, moves pending→active upon payment, or moves from a
non-terminal state to cancelled — no operation moves a booking out of
cancelled or completed.  The invariant is preserved by every single
operation and hence by every operation sequence. -/
theorem C5_booking_transitions (db : DB) (h : BookingInv db) :
    (∀ o : Op, BookingInv (applyOp db o) ∧ ExistingBookingsStep db (applyOp db o)) ∧
    (∀ ops : List Op, BookingInv (runOps db ops)) :=
  ⟨fun o => applyOp_inv_step db h o, fun ops => runOps_inv ops db h⟩

theorem C5_booking_transitions_witness :
    BookingInv fxDB ∧ (∀ ops : List Op, BookingInv (runOps fxDB ops)) := by
  have hinv : BookingInv fxDB := by
    intro b hb
    simp [fxDB] at hb
  exact ⟨hinv, (C5_booking_transitions fxDB hinv).2⟩

end Bowar
